import Mathlib

/-!
Verification of the response-parsing and log-aggregation core of the
AI_Nutritionist backend (src/backend/main.py).

The Python core is shallowly embedded:
* strings are handled as `List Char`, with Python `str.split(sep)`
  modelled by `splitOnL` (non-overlapping, left-to-right cuts, nonempty
  separator, exactly Python semantics including the leading/trailing
  empty pieces);
* `re.search` for the four patterns `Key: ([\d.]+) unit` is modelled by
  `reSearch` (leftmost match position, greedy capture of the digit/dot
  run with backtracking against the literal unit suffix);
* Python `float(...)` applied to a `[\d.]+` capture is modelled by
  `parsePyFloat` over exact rationals: it succeeds exactly on the
  strings of digits and dots that are valid Python float literals
  (at most one dot, at least one digit) and fails (ValueError)
  otherwise; the uncaught ValueError makes the embedded parser return
  `Except.error`;
* the mutable `current_item` dict becomes a `FoodItem` record of six
  optional fields, with Python dict truthiness modelled by
  `FoodItem.isEmptyItem`;
* `datetime.now().strftime(...)` is injected as the parameter `now`;
* the module-level `food_log` / `chat_history` state and the endpoint
  bodies become explicit state-passing functions over `ServerState`.
-/

set_option maxRecDepth 100000

deriving instance DecidableEq for Except

/-- One character of the `[\d.]` character class of the extraction regexes. -/
def isDigitOrDot (c : Char) : Bool := c.isDigit || c == '.'

/-- Python `sub in s` (substring containment) on character lists. -/
def strContains (sub : List Char) : List Char → Bool
  | [] => sub.isEmpty
  | c :: rest => sub.isPrefixOf (c :: rest) || strContains sub rest

/-- Fuel-indexed worker for `splitOnL`; with fuel at least the length of the
list it computes Python `str.split(sep)` for a nonempty separator. -/
def splitOnGo (sep : List Char) : Nat → List Char → List (List Char)
  | _, [] => [[]]
  | 0, l => [l]
  | f + 1, c :: rest =>
    if sep.isPrefixOf (c :: rest) then
      [] :: splitOnGo sep f (List.drop sep.length (c :: rest))
    else
      match splitOnGo sep f rest with
      | [] => [[c]]
      | p :: ps => (c :: p) :: ps

/-- Python `str.split(sep)` for a nonempty separator `sep`. -/
def splitOnL (sep l : List Char) : List (List Char) := splitOnGo sep l.length l

/-- Python `lst[1]`, which raises IndexError when fewer than two elements. -/
def pyGet1 (l : List (List Char)) : Option (List Char) := (List.drop 1 l).head?

/-- Digit run to a natural number, as `float` reads the integer or fractional
part of a literal. -/
def digitsToNat (l : List Char) : Nat := l.foldl (fun n c => 10 * n + (c.toNat - 48)) 0

/-- Python `float(s)` restricted to the strings `s` that the `[\d.]+` capture
group can produce (digits and dots only): it succeeds exactly when `s` has at
most one dot and at least one digit, returning the exact rational value of the
decimal literal, `intPart + fracPart / 10 ^ fracLen`, built with `mkRat`;
`none` models the ValueError raised otherwise. -/
def parsePyFloat (l : List Char) : Option ℚ :=
  if l.all isDigitOrDot then
    match splitOnL ['.'] l with
    | [ip] => if ip.isEmpty then none else some (mkRat (digitsToNat ip) 1)
    | [ip, fp] =>
      if ip.isEmpty && fp.isEmpty then none
      else some (mkRat (digitsToNat ip * 10 ^ fp.length + digitsToNat fp) (10 ^ fp.length))
    | _ => none
  else none

/-- Backtracking step of the greedy `[\d.]+` capture: try the capture lengths
`k, k-1, ..., 1` until the literal suffix matches right after the capture. -/
def tryLens (suffixLit rest : List Char) : Nat → Option (List Char)
  | 0 => none
  | k + 1 =>
    if suffixLit.isPrefixOf (List.drop (k + 1) rest) then some (List.take (k + 1) rest)
    else tryLens suffixLit rest k

/-- Try to match `key ([\d.]+) suffixLit` at the start of `s`, returning the
captured group. -/
def matchAt (key suffixLit s : List Char) : Option (List Char) :=
  if key.isPrefixOf s then
    let rest := List.drop key.length s
    tryLens suffixLit rest (rest.takeWhile isDigitOrDot).length
  else none

/-- Python `re.search` for the pattern `key ([\d.]+) suffixLit`: leftmost
match position, greedy capture. -/
def reSearch (key suffixLit : List Char) : List Char → Option (List Char)
  | [] => none
  | c :: cs =>
    match matchAt key suffixLit (c :: cs) with
    | some g => some g
    | none => reSearch key suffixLit cs

/-- The literal `"- Item:"` tested by `line.startswith`. -/
def itemMarker : List Char := "- Item:".data

/-- The separator `"Item: "` of `line.split("Item: ")`. -/
def itemKeySp : List Char := "Item: ".data

/-- The separator `" - "` of `.split(" - ")`. -/
def dashSep : List Char := " - ".data

/-- The substring `"Calories:"` of the containment test. -/
def calInKey : List Char := "Calories:".data

/-- The literal `"Calories: "` opening the calories regex. -/
def calKey : List Char := "Calories: ".data

/-- The literal `" kcal"` closing the calories regex. -/
def kcalSuffix : List Char := " kcal".data

/-- The substring `"Carbs:"` of the containment test. -/
def carbsInKey : List Char := "Carbs:".data

/-- The literal `"Carbs: "` opening the carbs regex. -/
def carbsKey : List Char := "Carbs: ".data

/-- The literal `" g"` closing the carbs, proteins and fats regexes. -/
def gSuffix : List Char := " g".data

/-- The substring `"Proteins:"` of the containment test. -/
def protInKey : List Char := "Proteins:".data

/-- The literal `"Proteins: "` opening the proteins regex. -/
def protKey : List Char := "Proteins: ".data

/-- The substring `"Fats:"` of the containment test. -/
def fatsInKey : List Char := "Fats:".data

/-- The literal `"Fats: "` opening the fats regex. -/
def fatsKey : List Char := "Fats: ".data

/-- The `current_item` dict of the parser and the entries of `food_log`:
six optional entries; a missing key is `none`. -/
structure FoodItem where
  name : Option String
  timestamp : Option String
  calories : Option ℚ
  carbs : Option ℚ
  proteins : Option ℚ
  fats : Option ℚ
deriving DecidableEq, Repr

/-- The empty dict `{}` that `current_item` starts as. -/
def emptyItem : FoodItem :=
  { name := none, timestamp := none, calories := none, carbs := none,
    proteins := none, fats := none }

/-- Python truthiness of the `current_item` dict: empty iff no key is set. -/
def FoodItem.isEmptyItem (i : FoodItem) : Bool :=
  i.name.isNone && i.timestamp.isNone && i.calories.isNone && i.carbs.isNone &&
    i.proteins.isNone && i.fats.isNone

/-- Name extraction `line.split("Item: ")[1].split(" - ")[0]` with the
IndexError handler that substitutes `"Unknown"`.  Only the `[1]` index can
raise; `.split(" - ")[0]` always succeeds because `split` never returns an
empty list. -/
def extractName (line : List Char) : String :=
  match pyGet1 (splitOnL itemKeySp line) with
  | some part => String.mk ((splitOnL dashSep part).headD [])
  | none => "Unknown"

/-- The fresh `current_item` built on a `"- Item:"` line: timestamp now,
name extracted (or the sentinel), no numeric fields. -/
def newItem (now : String) (line : List Char) : FoodItem :=
  { name := some (extractName line), timestamp := some now, calories := none,
    carbs := none, proteins := none, fats := none }

/-- The `elif` chain of the parser loop body for a line that does not start
with `"- Item:"`: the first containment test that hits selects one regex; a
successful capture is converted with `float`, whose ValueError (invalid
capture such as `"1.2.3"`) propagates as `Except.error`. -/
def stepFields (line : List Char) (cur : FoodItem) : Except String FoodItem :=
  if strContains calInKey line then
    match reSearch calKey kcalSuffix line with
    | some g =>
      match parsePyFloat g with
      | some v => .ok { cur with calories := some v }
      | none => .error "ValueError"
    | none => .ok cur
  else if strContains carbsInKey line then
    match reSearch carbsKey gSuffix line with
    | some g =>
      match parsePyFloat g with
      | some v => .ok { cur with carbs := some v }
      | none => .error "ValueError"
    | none => .ok cur
  else if strContains protInKey line then
    match reSearch protKey gSuffix line with
    | some g =>
      match parsePyFloat g with
      | some v => .ok { cur with proteins := some v }
      | none => .error "ValueError"
    | none => .ok cur
  else if strContains fatsInKey line then
    match reSearch fatsKey gSuffix line with
    | some g =>
      match parsePyFloat g with
      | some v => .ok { cur with fats := some v }
      | none => .error "ValueError"
    | none => .ok cur
  else .ok cur

/-- The guarded append `if current_item: food_items.append(current_item)`. -/
def finalize (acc : List FoodItem) (cur : FoodItem) : List FoodItem :=
  if cur.isEmptyItem then acc else acc ++ [cur]

/-- The `for line in lines` loop of `parse_gemini_response`, followed by the
trailing guarded append. -/
def parseLoop (now : String) : List (List Char) → List FoodItem → FoodItem →
    Except String (List FoodItem)
  | [], acc, cur => .ok (finalize acc cur)
  | line :: rest, acc, cur =>
    if itemMarker.isPrefixOf line then
      parseLoop now rest (finalize acc cur) (newItem now line)
    else
      match stepFields line cur with
      | .ok cur2 => parseLoop now rest acc cur2
      | .error e => .error e

/-- `response_text.split('\n')`. -/
def linesOf (s : String) : List (List Char) := splitOnL ['\n'] s.data

/-- The embedded `parse_gemini_response`: `now` stands for the
`datetime.now().strftime(...)` timestamp; `Except.error` models the uncaught
ValueError that `float` can raise on a malformed capture. -/
def parse_gemini_response (now : String) (response_text : String) :
    Except String (List FoodItem) :=
  parseLoop now (linesOf response_text) [] emptyItem

/-- The `summary` dict computed in `analyze_food` and `get_food_log`. -/
structure NutritionSummary where
  total_calories : ℚ
  total_carbs : ℚ
  total_proteins : ℚ
  total_fats : ℚ
deriving DecidableEq, Repr

/-- The four `sum(item.get(field, 0) for item in food_log)` comprehensions. -/
def summarize (log : List FoodItem) : NutritionSummary :=
  { total_calories := (log.map (fun i => i.calories.getD 0)).sum
    total_carbs := (log.map (fun i => i.carbs.getD 0)).sum
    total_proteins := (log.map (fun i => i.proteins.getD 0)).sum
    total_fats := (log.map (fun i => i.fats.getD 0)).sum }

/-- Written from the spec text for comparison with `summarize`: the sum of
one field over all records, an absent field counting as `0`. -/
def sumFieldSpec (f : FoodItem → Option ℚ) : List FoodItem → ℚ
  | [] => 0
  | i :: rest => (f i).getD 0 + sumFieldSpec f rest

/-- `food_log.extend(food_items)`. -/
def extendLog (log new : List FoodItem) : List FoodItem := log ++ new

/-- One entry of `chat_history`: `{"user": ..., "bot": ...}`. -/
structure ChatTurn where
  user : String
  bot : String
deriving DecidableEq, Repr

/-- The module-level mutable state: `food_log` and `chat_history`. -/
structure ServerState where
  food_log : List FoodItem
  chat_history : List ChatTurn
deriving DecidableEq, Repr

/-- The core of the `analyze_food` endpoint after the model reply
`response_text` arrives: parse, extend the log, summarize the extended log.
Returns the new state with the parsed items and the summary. -/
def analyze_food_core (st : ServerState) (now response_text : String) :
    Except String (ServerState × List FoodItem × NutritionSummary) :=
  match parse_gemini_response now response_text with
  | .error e => .error e
  | .ok items =>
    let newLog := extendLog st.food_log items
    .ok ({ st with food_log := newLog }, items, summarize newLog)

/-- The core of the `get_food_log` endpoint: read the log, compute the
summary, leave the state as the body leaves it (no assignment occurs). -/
def get_food_log_core (st : ServerState) :
    ServerState × List FoodItem × NutritionSummary :=
  (st, st.food_log, summarize st.food_log)

/-- The core of the `get_chat_history` endpoint: read the history, leave the
state as the body leaves it (no assignment occurs). -/
def get_chat_history_core (st : ServerState) : ServerState × List ChatTurn :=
  (st, st.chat_history)

/-- The state effect of the `chat_with_nutritionist` endpoint once the model
reply `reply` arrives: append one turn to `chat_history`. -/
def chat_core (st : ServerState) (message reply : String) : ServerState :=
  { st with chat_history := st.chat_history ++ [{ user := message, bot := reply }] }

/-- A line on which the parser loop body does nothing: it does not start with
`"- Item:"` and the regex selected by the `elif` chain (if any) fails to
match. -/
def quietLine (line : List Char) : Bool :=
  !(itemMarker.isPrefixOf line) &&
    (if strContains calInKey line then (reSearch calKey kcalSuffix line).isNone
     else if strContains carbsInKey line then (reSearch carbsKey gSuffix line).isNone
     else if strContains protInKey line then (reSearch protKey gSuffix line).isNone
     else if strContains fatsInKey line then (reSearch fatsKey gSuffix line).isNone
     else true)

/-- The calories pattern fires on a line: the line reaches the calories
branch of the `elif` chain and `re.search` succeeds there. -/
def calFires (line : List Char) : Bool :=
  !(itemMarker.isPrefixOf line) && strContains calInKey line &&
    (reSearch calKey kcalSuffix line).isSome

/-- The carbs pattern fires on a line. -/
def carbsFires (line : List Char) : Bool :=
  !(itemMarker.isPrefixOf line) && !(strContains calInKey line) &&
    strContains carbsInKey line && (reSearch carbsKey gSuffix line).isSome

/-- The proteins pattern fires on a line. -/
def protFires (line : List Char) : Bool :=
  !(itemMarker.isPrefixOf line) && !(strContains calInKey line) &&
    !(strContains carbsInKey line) && strContains protInKey line &&
    (reSearch protKey gSuffix line).isSome

/-- The fats pattern fires on a line. -/
def fatsFires (line : List Char) : Bool :=
  !(itemMarker.isPrefixOf line) && !(strContains calInKey line) &&
    !(strContains carbsInKey line) && !(strContains protInKey line) &&
    strContains fatsInKey line && (reSearch fatsKey gSuffix line).isSome

/-- Every numeric field that is present on the record is non-negative. -/
def nonnegItem (i : FoodItem) : Prop :=
  (∀ q : ℚ, i.calories = some q → 0 ≤ q) ∧ (∀ q : ℚ, i.carbs = some q → 0 ≤ q) ∧
    (∀ q : ℚ, i.proteins = some q → 0 ≤ q) ∧ (∀ q : ℚ, i.fats = some q → 0 ≤ q)

/-! ## Helper lemmas -/

theorem newItem_not_empty (now : String) (line : List Char) :
    (newItem now line).isEmptyItem = false := by
  simp [newItem, FoodItem.isEmptyItem]

theorem emptyItem_is_empty : emptyItem.isEmptyItem = true := by
  simp [emptyItem, FoodItem.isEmptyItem]

theorem finalize_emptyItem (acc : List FoodItem) : finalize acc emptyItem = acc := by
  simp [finalize, emptyItem_is_empty]

theorem parseLoop_allItem (now : String) :
    ∀ (lines : List (List Char)) (acc : List FoodItem) (cur : FoodItem),
      (∀ l ∈ lines, itemMarker.isPrefixOf l = true) → cur.isEmptyItem = false →
      parseLoop now lines acc cur = .ok (acc ++ cur :: lines.map (newItem now))
  | [], acc, cur, _, hcur => by
    simp [parseLoop, finalize, hcur]
  | l :: ls, acc, cur, hall, hcur => by
    have hl : itemMarker.isPrefixOf l = true := hall l (by simp)
    have ih := parseLoop_allItem now ls (acc ++ [cur]) (newItem now l)
      (fun x hx => hall x (by simp [hx])) (newItem_not_empty now l)
    simp [parseLoop, hl, finalize, hcur, ih]

theorem parse_on_all_item_lines (now input : String)
    (h : ∀ l ∈ linesOf input, itemMarker.isPrefixOf l = true) :
    parse_gemini_response now input = .ok ((linesOf input).map (newItem now)) := by
  rw [parse_gemini_response]
  cases hl : linesOf input with
  | nil => simp [parseLoop, finalize_emptyItem]
  | cons l ls =>
    have hl1 : itemMarker.isPrefixOf l = true := h l (by rw [hl]; simp)
    have hrest : ∀ x ∈ ls, itemMarker.isPrefixOf x = true :=
      fun x hx => h x (by rw [hl]; simp [hx])
    rw [parseLoop, if_pos hl1, finalize_emptyItem,
      parseLoop_allItem now ls [] (newItem now l) hrest (newItem_not_empty now l)]
    simp

theorem splitOnGo_eq_single (sep : List Char) :
    ∀ (f : Nat) (l : List Char), l.length ≤ f → strContains sep l = false →
      splitOnGo sep f l = [l]
  | f, [], _, _ => by cases f <;> rfl
  | 0, _ :: _, hf, _ => by simp at hf
  | f + 1, c :: rest, hf, hc => by
    rw [strContains, Bool.or_eq_false_iff] at hc
    rw [splitOnGo, if_neg (by simp [hc.1]),
      splitOnGo_eq_single sep f rest (Nat.le_of_succ_le_succ (by simpa using hf)) hc.2]

theorem extractName_of_no_key (line : List Char)
    (h : strContains itemKeySp line = false) : extractName line = "Unknown" := by
  rw [extractName, splitOnL, splitOnGo_eq_single itemKeySp line.length line le_rfl h]
  rfl

theorem stepFields_quiet (line : List Char) (cur : FoodItem)
    (h : quietLine line = true) : stepFields line cur = .ok cur := by
  rw [quietLine, Bool.and_eq_true] at h
  obtain ⟨-, hbr⟩ := h
  rw [stepFields]
  split_ifs at hbr ⊢ <;> simp_all [Option.isNone_iff_eq_none]

theorem parseLoop_quiet (now : String) :
    ∀ (lines : List (List Char)), (∀ l ∈ lines, quietLine l = true) →
      parseLoop now lines [] emptyItem = .ok []
  | [], _ => by simp [parseLoop, finalize_emptyItem]
  | l :: ls, h => by
    have hq : quietLine l = true := h l (by simp)
    have hpre : itemMarker.isPrefixOf l = false := by
      rw [quietLine, Bool.and_eq_true] at hq
      simpa using hq.1
    rw [parseLoop, if_neg (by simp [hpre]), stepFields_quiet l emptyItem hq]
    exact parseLoop_quiet now ls (fun x hx => h x (by simp [hx]))

theorem stepFields_characterize (line : List Char) (cur cur2 : FoodItem)
    (h : stepFields line cur = .ok cur2) :
    cur2 = cur ∨
    (strContains calInKey line = true ∧
      ∃ g v, reSearch calKey kcalSuffix line = some g ∧ parsePyFloat g = some v ∧
        cur2 = { cur with calories := some v }) ∨
    (strContains calInKey line = false ∧ strContains carbsInKey line = true ∧
      ∃ g v, reSearch carbsKey gSuffix line = some g ∧ parsePyFloat g = some v ∧
        cur2 = { cur with carbs := some v }) ∨
    (strContains calInKey line = false ∧ strContains carbsInKey line = false ∧
      strContains protInKey line = true ∧
      ∃ g v, reSearch protKey gSuffix line = some g ∧ parsePyFloat g = some v ∧
        cur2 = { cur with proteins := some v }) ∨
    (strContains calInKey line = false ∧ strContains carbsInKey line = false ∧
      strContains protInKey line = false ∧ strContains fatsInKey line = true ∧
      ∃ g v, reSearch fatsKey gSuffix line = some g ∧ parsePyFloat g = some v ∧
        cur2 = { cur with fats := some v }) := by
  rw [stepFields] at h
  split_ifs at h with h1 h2 h3 h4
  · split at h
    next g hs =>
      split at h
      next v hv =>
        right; left
        exact ⟨h1, g, v, hs, hv, by simpa using h.symm⟩
      next hv => exact absurd h (by simp)
    next hs => left; simpa using h.symm
  · split at h
    next g hs =>
      split at h
      next v hv =>
        right; right; left
        exact ⟨by simpa using h1, h2, g, v, hs, hv, by simpa using h.symm⟩
      next hv => exact absurd h (by simp)
    next hs => left; simpa using h.symm
  · split at h
    next g hs =>
      split at h
      next v hv =>
        right; right; right; left
        exact ⟨by simpa using h1, by simpa using h2, h3, g, v, hs, hv,
          by simpa using h.symm⟩
      next hv => exact absurd h (by simp)
    next hs => left; simpa using h.symm
  · split at h
    next g hs =>
      split at h
      next v hv =>
        right; right; right; right
        exact ⟨by simpa using h1, by simpa using h2, by simpa using h3, h4, g, v,
          hs, hv, by simpa using h.symm⟩
      next hv => exact absurd h (by simp)
    next hs => left; simpa using h.symm
  · left; simpa using h.symm

theorem finalize_mem (acc : List FoodItem) (cur item : FoodItem)
    (h : item ∈ finalize acc cur) : item ∈ acc ∨ item = cur := by
  rw [finalize] at h
  split at h
  · exact Or.inl h
  · simpa using h

theorem parseLoop_field_source (now : String) (f : FoodItem → Option ℚ)
    (fires : List Char → Bool)
    (hstep : ∀ line cur cur2, itemMarker.isPrefixOf line = false →
      stepFields line cur = .ok cur2 → (f cur2).isSome = true →
      (f cur).isSome = true ∨ fires line = true)
    (hnew : ∀ line, f (newItem now line) = none) :
    ∀ (lines : List (List Char)) (acc : List FoodItem) (cur : FoodItem)
      (items : List FoodItem), parseLoop now lines acc cur = .ok items →
      ∀ item ∈ items, item ∈ acc ∨
        ((f item).isSome = true → (f cur).isSome = true ∨ ∃ l ∈ lines, fires l = true)
  | [], acc, cur, items, h, item, hm => by
    rw [parseLoop] at h
    obtain rfl : finalize acc cur = items := by simpa using h
    rcases finalize_mem acc cur item hm with hi | rfl
    · exact Or.inl hi
    · exact Or.inr fun hq => Or.inl hq
  | l :: ls, acc, cur, items, h, item, hm => by
    rw [parseLoop] at h
    split at h
    · rename_i hpre
      have ih := parseLoop_field_source now f fires hstep hnew ls (finalize acc cur)
        (newItem now l) items h item hm
      rcases ih with hi | himp
      · rcases finalize_mem acc cur item hi with hia | rfl
        · exact Or.inl hia
        · exact Or.inr fun hq => Or.inl hq
      · refine Or.inr fun hq => ?_
        rcases himp hq with hnew2 | ⟨x, hx, hfx⟩
        · rw [hnew l] at hnew2; simp at hnew2
        · exact Or.inr ⟨x, by simp [hx], hfx⟩
    · rename_i hpre
      split at h
      · rename_i cur2 hs
        have ih := parseLoop_field_source now f fires hstep hnew ls acc cur2 items
          h item hm
        rcases ih with hi | himp
        · exact Or.inl hi
        · refine Or.inr fun hq => ?_
          rcases himp hq with hc2 | ⟨x, hx, hfx⟩
          · rcases hstep l cur cur2 (Bool.eq_false_iff.mpr hpre) hs hc2 with hc | hf
            · exact Or.inl hc
            · exact Or.inr ⟨l, by simp, hf⟩
          · exact Or.inr ⟨x, by simp [hx], hfx⟩
      · exact absurd h (by simp)

theorem stepFields_calories_source (line : List Char) (cur cur2 : FoodItem)
    (hpre : itemMarker.isPrefixOf line = false)
    (h : stepFields line cur = .ok cur2) (hq : cur2.calories.isSome = true) :
    cur.calories.isSome = true ∨ calFires line = true := by
  rcases stepFields_characterize line cur cur2 h with rfl | ⟨h1, g, v, hs, _, rfl⟩ |
    ⟨_, _, _, _, _, _, rfl⟩ | ⟨_, _, _, _, _, _, _, rfl⟩ | ⟨_, _, _, _, _, _, _, _, rfl⟩
  · exact Or.inl hq
  · exact Or.inr (by simp [calFires, hpre, h1, hs])
  · exact Or.inl hq
  · exact Or.inl hq
  · exact Or.inl hq

theorem stepFields_carbs_source (line : List Char) (cur cur2 : FoodItem)
    (hpre : itemMarker.isPrefixOf line = false)
    (h : stepFields line cur = .ok cur2) (hq : cur2.carbs.isSome = true) :
    cur.carbs.isSome = true ∨ carbsFires line = true := by
  rcases stepFields_characterize line cur cur2 h with rfl | ⟨_, _, _, _, _, rfl⟩ |
    ⟨h1, h2, g, v, hs, _, rfl⟩ | ⟨_, _, _, _, _, _, _, rfl⟩ | ⟨_, _, _, _, _, _, _, _, rfl⟩
  · exact Or.inl hq
  · exact Or.inl hq
  · exact Or.inr (by simp [carbsFires, hpre, h1, h2, hs])
  · exact Or.inl hq
  · exact Or.inl hq

theorem stepFields_proteins_source (line : List Char) (cur cur2 : FoodItem)
    (hpre : itemMarker.isPrefixOf line = false)
    (h : stepFields line cur = .ok cur2) (hq : cur2.proteins.isSome = true) :
    cur.proteins.isSome = true ∨ protFires line = true := by
  rcases stepFields_characterize line cur cur2 h with rfl | ⟨_, _, _, _, _, rfl⟩ |
    ⟨_, _, _, _, _, _, rfl⟩ | ⟨h1, h2, h3, g, v, hs, _, rfl⟩ |
    ⟨_, _, _, _, _, _, _, _, rfl⟩
  · exact Or.inl hq
  · exact Or.inl hq
  · exact Or.inl hq
  · exact Or.inr (by simp [protFires, hpre, h1, h2, h3, hs])
  · exact Or.inl hq

theorem stepFields_fats_source (line : List Char) (cur cur2 : FoodItem)
    (hpre : itemMarker.isPrefixOf line = false)
    (h : stepFields line cur = .ok cur2) (hq : cur2.fats.isSome = true) :
    cur.fats.isSome = true ∨ fatsFires line = true := by
  rcases stepFields_characterize line cur cur2 h with rfl | ⟨_, _, _, _, _, rfl⟩ |
    ⟨_, _, _, _, _, _, rfl⟩ | ⟨_, _, _, _, _, _, _, rfl⟩ |
    ⟨h1, h2, h3, h4, g, v, hs, _, rfl⟩
  · exact Or.inl hq
  · exact Or.inl hq
  · exact Or.inl hq
  · exact Or.inl hq
  · exact Or.inr (by simp [fatsFires, hpre, h1, h2, h3, h4, hs])

theorem parsePyFloat_nonneg (g : List Char) (v : ℚ) (h : parsePyFloat g = some v) :
    0 ≤ v := by
  rw [parsePyFloat] at h
  split_ifs at h
  split at h
  · split_ifs at h
    obtain rfl : mkRat _ 1 = v := by simpa using h
    rw [Rat.mkRat_eq_div]
    positivity
  · split_ifs at h
    obtain rfl : mkRat _ _ = v := by simpa using h
    rw [Rat.mkRat_eq_div]
    positivity
  · simp at h

theorem nonnegItem_emptyItem : nonnegItem emptyItem := by
  simp [nonnegItem, emptyItem]

theorem nonnegItem_newItem (now : String) (line : List Char) :
    nonnegItem (newItem now line) := by
  simp [nonnegItem, newItem]

theorem stepFields_nonneg (line : List Char) (cur cur2 : FoodItem)
    (h : stepFields line cur = .ok cur2) (hc : nonnegItem cur) : nonnegItem cur2 := by
  obtain ⟨hcal, hcarbs, hprot, hfats⟩ := hc
  rcases stepFields_characterize line cur cur2 h with rfl | ⟨_, g, v, _, hv, rfl⟩ |
    ⟨_, _, g, v, _, hv, rfl⟩ | ⟨_, _, _, g, v, _, hv, rfl⟩ |
    ⟨_, _, _, _, g, v, _, hv, rfl⟩
  · exact ⟨hcal, hcarbs, hprot, hfats⟩
  · refine ⟨fun q hq => ?_, hcarbs, hprot, hfats⟩
    obtain rfl : v = q := by simpa using hq
    exact parsePyFloat_nonneg g v hv
  · refine ⟨hcal, fun q hq => ?_, hprot, hfats⟩
    obtain rfl : v = q := by simpa using hq
    exact parsePyFloat_nonneg g v hv
  · refine ⟨hcal, hcarbs, fun q hq => ?_, hfats⟩
    obtain rfl : v = q := by simpa using hq
    exact parsePyFloat_nonneg g v hv
  · refine ⟨hcal, hcarbs, hprot, fun q hq => ?_⟩
    obtain rfl : v = q := by simpa using hq
    exact parsePyFloat_nonneg g v hv

theorem parseLoop_nonneg (now : String) :
    ∀ (lines : List (List Char)) (acc : List FoodItem) (cur : FoodItem)
      (items : List FoodItem), (∀ i ∈ acc, nonnegItem i) → nonnegItem cur →
      parseLoop now lines acc cur = .ok items → ∀ i ∈ items, nonnegItem i
  | [], acc, cur, items, hacc, hcur, h, i, hm => by
    rw [parseLoop] at h
    obtain rfl : finalize acc cur = items := by simpa using h
    rcases finalize_mem acc cur i hm with hi | rfl
    · exact hacc i hi
    · exact hcur
  | l :: ls, acc, cur, items, hacc, hcur, h, i, hm => by
    rw [parseLoop] at h
    split at h
    · refine parseLoop_nonneg now ls (finalize acc cur) (newItem now l) items
        (fun j hj => ?_) (nonnegItem_newItem now l) h i hm
      rcases finalize_mem acc cur j hj with hja | rfl
      · exact hacc j hja
      · exact hcur
    · split at h
      · rename_i cur2 hs
        exact parseLoop_nonneg now ls acc cur2 items hacc
          (stepFields_nonneg l cur cur2 hs hcur) h i hm
      · exact absurd h (by simp)

theorem sum_map_getD (f : FoodItem → Option ℚ) :
    ∀ log : List FoodItem, (log.map (fun i => (f i).getD 0)).sum = sumFieldSpec f log
  | [] => by simp [sumFieldSpec]
  | i :: rest => by
    rw [List.map_cons, List.sum_cons, sumFieldSpec, sum_map_getD f rest]

/-! ## Claim theorems -/

/-- C1: the claim expects the Apple/Banana two-line combined-format input to
parse into records carrying the stated numeric fields and to summarize to
calories=200, carbs=52, proteins=1.8, fats=0.7.  The code disagrees: a line
starting with `"- Item:"` is consumed entirely by the item branch of the
`if`/`elif` chain, so the numeric patterns never run on it; both records get
only a name and timestamp, and the summary over them is all zeros.  This
theorem evaluates the code on the claim's exact input. -/
theorem combined_format_line_yields_no_numeric_fields :
    parse_gemini_response "2025-01-01 12:00:00"
        "- Item: Apple - Calories: 95 kcal, Carbs: 25 g, Proteins: 0.5 g, Fats: 0.3 g\n- Item: Banana - Calories: 105 kcal, Carbs: 27 g, Proteins: 1.3 g, Fats: 0.4 g" =
      .ok [{ name := some "Apple", timestamp := some "2025-01-01 12:00:00",
             calories := none, carbs := none, proteins := none, fats := none },
           { name := some "Banana", timestamp := some "2025-01-01 12:00:00",
             calories := none, carbs := none, proteins := none, fats := none }] ∧
    summarize [{ name := some "Apple", timestamp := some "2025-01-01 12:00:00",
                 calories := none, carbs := none, proteins := none, fats := none },
               { name := some "Banana", timestamp := some "2025-01-01 12:00:00",
                 calories := none, carbs := none, proteins := none, fats := none }] =
      { total_calories := 0, total_carbs := 0, total_proteins := 0, total_fats := 0 } ∧
    summarize [{ name := some "Apple", timestamp := some "2025-01-01 12:00:00",
                 calories := none, carbs := none, proteins := none, fats := none },
               { name := some "Banana", timestamp := some "2025-01-01 12:00:00",
                 calories := none, carbs := none, proteins := none, fats := none }] ≠
      { total_calories := 200, total_carbs := 52, total_proteins := mkRat 18 10,
        total_fats := mkRat 7 10 } := by
  refine ⟨by decide, ?_, ?_⟩
  · simp [summarize]
  · simp [summarize]

/-- C2 counterexample: the claim says the input `"- Item: MysteryFood"` (no
`" - "` separator) yields a record named `"Unknown"`; the code instead takes
the whole remainder after `"Item: "` as the name, because
`.split(" - ")[0]` cannot raise. -/
theorem mysteryFood_name_is_not_unknown :
    parse_gemini_response "2025-01-01 12:00:00" "- Item: MysteryFood" =
      .ok [{ name := some "MysteryFood", timestamp := some "2025-01-01 12:00:00",
             calories := none, carbs := none, proteins := none, fats := none }] ∧
    "MysteryFood" ≠ "Unknown" :=
  ⟨by decide, by decide⟩

/-- C2 (amended): the name extracted on a `"- Item:"` line falls back to the
sentinel `"Unknown"` when `"Item: "` (with the trailing space) does not occur
in the line; when only the `" - "` separator is absent the name is the whole
remainder after the first `"Item: "`, so `"- Item: MysteryFood"` yields one
record named `"MysteryFood"` with no numeric fields set. -/
theorem unknown_name_only_when_item_key_absent (line : List Char) (now : String)
    (h : strContains itemKeySp line = false) :
    extractName line = "Unknown" ∧
    parse_gemini_response now "- Item: MysteryFood" =
      .ok [{ name := some "MysteryFood", timestamp := some now, calories := none,
             carbs := none, proteins := none, fats := none }] := by
  refine ⟨extractName_of_no_key line h, ?_⟩
  rw [parse_on_all_item_lines now "- Item: MysteryFood" (by decide)]
  have h3 : linesOf "- Item: MysteryFood" = ["- Item: MysteryFood".data] := by decide
  rw [h3]
  simp only [List.map_cons, List.map_nil, newItem, Except.ok.injEq, List.cons.injEq,
    FoodItem.mk.injEq, Option.some.injEq, and_true, true_and]
  decide

theorem unknown_name_only_when_item_key_absent_witness :
    strContains itemKeySp "no marker here".data = false ∧
    (extractName "no marker here".data = "Unknown" ∧
      parse_gemini_response "2025-01-01 12:00:00" "- Item: MysteryFood" =
        .ok [{ name := some "MysteryFood", timestamp := some "2025-01-01 12:00:00",
               calories := none, carbs := none, proteins := none, fats := none }]) :=
  ⟨by decide, unknown_name_only_when_item_key_absent "no marker here".data
    "2025-01-01 12:00:00" (by decide)⟩

/-- C3: the claim says the parser is total and never raises.  The code raises
an uncaught ValueError when a numeric pattern captures a digits-and-dots
string that is not a valid float: on the line `"Calories: 1.2.3 kcal"` the
group `[\d.]+` captures `"1.2.3"` and `float("1.2.3")` raises.  This theorem
evaluates the embedded code at that input. -/
theorem parser_errors_on_unfloatable_capture :
    parse_gemini_response "2025-01-01 12:00:00" "Calories: 1.2.3 kcal" =
      .error "ValueError" := by decide

/-- C4 counterexample: the input `"Calories: 5 kcal"` has no line starting
with `"- Item:"`, yet the code returns a record (the calories pattern fills
the initial `current_item = ` empty dict, which the trailing guarded append
then emits), so the claim as stated is false. -/
theorem orphan_field_line_creates_record :
    ((linesOf "Calories: 5 kcal").all fun l => !(itemMarker.isPrefixOf l)) = true ∧
    parse_gemini_response "2025-01-01 12:00:00" "Calories: 5 kcal" =
      .ok [{ name := none, timestamp := none, calories := some 5, carbs := none,
             proteins := none, fats := none }] ∧
    parse_gemini_response "2025-01-01 12:00:00" "Calories: 5 kcal" ≠ .ok [] :=
  ⟨by decide, by decide, by decide⟩

/-- C4 (amended): for every input string none of whose lines starts with
`"- Item:"` AND on none of whose lines the numeric-field pattern selected by
the `elif` chain matches, `parse_gemini_response` returns the empty
sequence. -/
theorem no_marker_and_no_field_match_parses_empty (now input : String)
    (h : ∀ l ∈ linesOf input, quietLine l = true) :
    parse_gemini_response now input = .ok [] := by
  rw [parse_gemini_response]
  exact parseLoop_quiet now (linesOf input) h

theorem no_marker_and_no_field_match_parses_empty_witness :
    (∀ l ∈ linesOf "the model returned prose\nwith two lines", quietLine l = true) ∧
    parse_gemini_response "2025-01-01 12:00:00"
        "the model returned prose\nwith two lines" = .ok [] :=
  ⟨by decide, no_marker_and_no_field_match_parses_empty "2025-01-01 12:00:00"
    "the model returned prose\nwith two lines" (by decide)⟩

/-- C5: on an input every line of which starts with `"- Item:"` (which covers
every well-formed block of the documented one-line shape), the parser yields
exactly one FoodItem per `"- Item:"` line, in input order: the output is
precisely the map of `newItem` over the lines, and its length equals the
number of lines. -/
theorem one_record_per_item_line_in_order (now input : String)
    (h : ∀ l ∈ linesOf input, itemMarker.isPrefixOf l = true) :
    parse_gemini_response now input = .ok ((linesOf input).map (newItem now)) ∧
    ((linesOf input).map (newItem now)).length = (linesOf input).length :=
  ⟨parse_on_all_item_lines now input h, by simp⟩

theorem one_record_per_item_line_in_order_witness :
    (∀ l ∈ linesOf "- Item: A - x\n- Item: B - y", itemMarker.isPrefixOf l = true) ∧
    (parse_gemini_response "2025-01-01 12:00:00" "- Item: A - x\n- Item: B - y" =
      .ok ((linesOf "- Item: A - x\n- Item: B - y").map (newItem "2025-01-01 12:00:00")) ∧
     ((linesOf "- Item: A - x\n- Item: B - y").map
        (newItem "2025-01-01 12:00:00")).length =
       (linesOf "- Item: A - x\n- Item: B - y").length) :=
  ⟨by decide, one_record_per_item_line_in_order "2025-01-01 12:00:00"
    "- Item: A - x\n- Item: B - y" (by decide)⟩

/-- C6: every total computed by `summarize` is the sum of that field over the
whole log with an absent field counted as `0` (componentwise equality with
the spec-level recursive sum); on the empty log all four totals are `0`; and
on the log `[calories 100, (calories 50, carbs 10)]` the totals are
`(150, 10, 0, 0)`. -/
theorem summarize_totals_fields_absent_as_zero (log : List FoodItem) :
    summarize log =
      { total_calories := sumFieldSpec (fun i => i.calories) log,
        total_carbs := sumFieldSpec (fun i => i.carbs) log,
        total_proteins := sumFieldSpec (fun i => i.proteins) log,
        total_fats := sumFieldSpec (fun i => i.fats) log } ∧
    summarize [] =
      { total_calories := 0, total_carbs := 0, total_proteins := 0, total_fats := 0 } ∧
    summarize [{ name := none, timestamp := none, calories := some 100, carbs := none,
                 proteins := none, fats := none },
               { name := none, timestamp := none, calories := some 50, carbs := some 10,
                 proteins := none, fats := none }] =
      { total_calories := 150, total_carbs := 10, total_proteins := 0,
        total_fats := 0 } := by
  refine ⟨?_, by decide, ?_⟩
  · rw [summarize]
    simp [sum_map_getD]
  · simp [summarize]
    norm_num

/-- C7: extending the log with new items preserves length additivity, leaves
the original records unchanged in their original relative order as the first
segment, and appends the new items in order as the remaining segment. -/
theorem extendLog_preserves_prior_records (old new : List FoodItem) :
    (extendLog old new).length = old.length + new.length ∧
    (extendLog old new).take old.length = old ∧
    (extendLog old new).drop old.length = new := by
  refine ⟨by simp [extendLog], ?_, ?_⟩
  · simp [extendLog]
  · simp [extendLog]

/-- C8: a numeric field is present on a parsed record only if the matching
pattern actually fired on some input line (reaching its `elif` branch and
matching its regex); a field never matched is `none` on the record, and the
`none` is turned into `0` only by `summarize`. -/
theorem numeric_field_present_only_if_pattern_fired (now input : String)
    (items : List FoodItem) (h : parse_gemini_response now input = .ok items)
    (item : FoodItem) (hm : item ∈ items) :
    (item.calories.isSome = true → ∃ l ∈ linesOf input, calFires l = true) ∧
    (item.carbs.isSome = true → ∃ l ∈ linesOf input, carbsFires l = true) ∧
    (item.proteins.isSome = true → ∃ l ∈ linesOf input, protFires l = true) ∧
    (item.fats.isSome = true → ∃ l ∈ linesOf input, fatsFires l = true) ∧
    (item.calories = none → (summarize [item]).total_calories = 0) := by
  rw [parse_gemini_response] at h
  refine ⟨fun hq => ?_, fun hq => ?_, fun hq => ?_, fun hq => ?_,
    fun h0 => by simp [summarize, h0]⟩
  · rcases parseLoop_field_source now (fun i => i.calories) calFires
      stepFields_calories_source (fun _ => rfl) (linesOf input) [] emptyItem items
      h item hm with hmem | himp
    · simp at hmem
    · rcases himp hq with hc | hex
      · simp [emptyItem] at hc
      · exact hex
  · rcases parseLoop_field_source now (fun i => i.carbs) carbsFires
      stepFields_carbs_source (fun _ => rfl) (linesOf input) [] emptyItem items
      h item hm with hmem | himp
    · simp at hmem
    · rcases himp hq with hc | hex
      · simp [emptyItem] at hc
      · exact hex
  · rcases parseLoop_field_source now (fun i => i.proteins) protFires
      stepFields_proteins_source (fun _ => rfl) (linesOf input) [] emptyItem items
      h item hm with hmem | himp
    · simp at hmem
    · rcases himp hq with hc | hex
      · simp [emptyItem] at hc
      · exact hex
  · rcases parseLoop_field_source now (fun i => i.fats) fatsFires
      stepFields_fats_source (fun _ => rfl) (linesOf input) [] emptyItem items
      h item hm with hmem | himp
    · simp at hmem
    · rcases himp hq with hc | hex
      · simp [emptyItem] at hc
      · exact hex

theorem numeric_field_present_only_if_pattern_fired_witness :
    parse_gemini_response "2025-01-01 12:00:00" "Calories: 5 kcal" =
      .ok [{ name := none, timestamp := none, calories := some 5, carbs := none,
             proteins := none, fats := none }] ∧
    (∃ l ∈ linesOf "Calories: 5 kcal", calFires l = true) :=
  ⟨by decide,
    (numeric_field_present_only_if_pattern_fired "2025-01-01 12:00:00"
      "Calories: 5 kcal"
      [{ name := none, timestamp := none, calories := some 5, carbs := none,
         proteins := none, fats := none }] (by decide)
      { name := none, timestamp := none, calories := some 5, carbs := none,
        proteins := none, fats := none } (by decide)).1 (by decide)⟩

/-- C9: every numeric field present on a record produced by the parser is
non-negative, because the capture admits only digits and dots and the decimal
value of such a capture is a non-negative rational. -/
theorem parsed_numeric_fields_nonneg (now input : String) (items : List FoodItem)
    (h : parse_gemini_response now input = .ok items) (item : FoodItem)
    (hm : item ∈ items) (q : ℚ) :
    (item.calories = some q → 0 ≤ q) ∧ (item.carbs = some q → 0 ≤ q) ∧
    (item.proteins = some q → 0 ≤ q) ∧ (item.fats = some q → 0 ≤ q) := by
  rw [parse_gemini_response] at h
  have hn := parseLoop_nonneg now (linesOf input) [] emptyItem items (by simp)
    nonnegItem_emptyItem h item hm
  exact ⟨fun hq => hn.1 q hq, fun hq => hn.2.1 q hq, fun hq => hn.2.2.1 q hq,
    fun hq => hn.2.2.2 q hq⟩

theorem parsed_numeric_fields_nonneg_witness :
    ({ name := none, timestamp := none, calories := some (5 : ℚ), carbs := none,
       proteins := none, fats := none } : FoodItem).calories = some (5 : ℚ) ∧
    (0 : ℚ) ≤ 5 :=
  ⟨rfl,
    (parsed_numeric_fields_nonneg "2025-01-01 12:00:00" "Calories: 5 kcal"
      [{ name := none, timestamp := none, calories := some 5, carbs := none,
         proteins := none, fats := none }] (by decide)
      { name := none, timestamp := none, calories := some 5, carbs := none,
        proteins := none, fats := none } (by decide) 5).1 rfl⟩

/-- C10: the read-only endpoints are pure with respect to the stored state:
`get_food_log_core` returns the state unchanged together with the log and its
summary, `get_chat_history_core` returns the state unchanged together with
the history, the chat endpoint never touches the food log, and the food log
changes only through the `extend` performed in `analyze_food_core`, which
also leaves the chat history unchanged. -/
theorem read_endpoints_pure_and_log_extended_only_by_analyze
    (st : ServerState) (msg reply now txt : String) (st2 : ServerState)
    (items : List FoodItem) (sm : NutritionSummary)
    (h : analyze_food_core st now txt = .ok (st2, items, sm)) :
    (get_food_log_core st).1 = st ∧ (get_food_log_core st).2.1 = st.food_log ∧
    (get_chat_history_core st).1 = st ∧
    (get_chat_history_core st).2 = st.chat_history ∧
    (chat_core st msg reply).food_log = st.food_log ∧
    st2.food_log = extendLog st.food_log items ∧
    st2.chat_history = st.chat_history := by
  rw [analyze_food_core] at h
  split at h
  · exact absurd h (by simp)
  · rename_i its hp
    simp only [Except.ok.injEq, Prod.mk.injEq] at h
    obtain ⟨hst, hitems, -⟩ := h
    subst hitems
    refine ⟨rfl, rfl, rfl, rfl, rfl, ?_, ?_⟩
    · rw [← hst]
    · rw [← hst]

theorem read_endpoints_pure_and_log_extended_only_by_analyze_witness :
    analyze_food_core { food_log := [], chat_history := [] } "2025-01-01 12:00:00"
        "no items here" =
      .ok ({ food_log := [], chat_history := [] }, [],
        { total_calories := 0, total_carbs := 0, total_proteins := 0,
          total_fats := 0 }) ∧
    ((get_food_log_core { food_log := [], chat_history := [] }).1 =
        { food_log := [], chat_history := [] } ∧
      (get_food_log_core { food_log := [], chat_history := [] }).2.1 = [] ∧
      (get_chat_history_core { food_log := [], chat_history := [] }).1 =
        { food_log := [], chat_history := [] } ∧
      (get_chat_history_core { food_log := [], chat_history := [] }).2 = [] ∧
      (chat_core { food_log := [], chat_history := [] } "hi" "hello").food_log = [] ∧
      ([] : List FoodItem) = extendLog [] [] ∧
      ([] : List ChatTurn) = []) :=
  ⟨by decide,
    read_endpoints_pure_and_log_extended_only_by_analyze
      { food_log := [], chat_history := [] } "hi" "hello" "2025-01-01 12:00:00"
      "no items here" { food_log := [], chat_history := [] } []
      { total_calories := 0, total_carbs := 0, total_proteins := 0, total_fats := 0 }
      (by decide)⟩
